import Mathlib

/-!
# Verification of the validator-assignment / minimal-consensus-info core

Shallow embedding of the Go sources:

* `src/unnamed/part_000` — RPC package `beacon`:
  `ListValidatorAssignments`, `GetProposerListForEpoch`, `NextEpochProposerList`.
* `src/beacon-chain/blockchain/minimal_consensus_info.go` — package `blockchain`:
  `MinimalConsensusInfo`, `MinimalConsensusInfoRange`, `getPastProposerListForEpoch`.

Conventions of the embedding:

* Go machine integers (`uint64`, `types.Epoch`, `types.Slot`, validator indices)
  are modelled as `Nat`; none of the verified properties depends on wrap-around,
  and the overflow-checked helpers (`helpers.StartSlot` and friends) return
  errors in Go exactly on overflow, which cannot occur over `Nat`.
* A Go `(T, error)` return is modelled as `Except`.
* A Go map iterated with `range` is modelled as its list of entries in the
  (unspecified, runtime-chosen) iteration order; where a property depends on
  that order the enumeration is quantified explicitly.
* External collaborators that the spec declares out of scope (the shuffle
  primitives `helpers.CommitteeAssignments` / `helpers.ProposerAssignments`,
  the state accessors) are fields of the `BeaconState` interface record, which
  also encodes the spec invariant that the schedule is a pure function of
  (snapshot, epoch).
* Repository code that is not part of the given sources (the pagination
  package, the storage query `HighestSlotStatesBelow`, the slot/epoch
  helpers) is modelled from the spec's own description; each such definition
  is marked `Modelled from the spec:`.
-/

/-- Beacon-chain configuration constants (`params.BeaconConfig()` plus the
default page size used by the pagination package). -/
structure Config where
  slotsPerEpoch : Nat
  blsPubkeyLength : Nat
  secondsPerSlot : Nat
  defaultPageSize : Nat
deriving DecidableEq

/-- gRPC status codes used by the sources (`google.golang.org/grpc/codes`).
`unknown` stands for a plain `fmt.Errorf` error without an attached code. -/
inductive ErrCode where
  | invalidArgument
  | notFound
  | outOfRange
  | internal
  | unknown
deriving DecidableEq

/-- An error as produced by `status.Errorf(code, msg, ...)` or `fmt.Errorf`. -/
structure RpcError where
  code : ErrCode
  msg : String
deriving DecidableEq

instance {ε α : Type} [DecidableEq ε] [DecidableEq α] : DecidableEq (Except ε α) := fun x y =>
  match x, y with
  | Except.error e₁, Except.error e₂ =>
    if h : e₁ = e₂ then Decidable.isTrue (by rw [h])
    else Decidable.isFalse (by intro hc; cases hc; exact h rfl)
  | Except.error _, Except.ok _ => Decidable.isFalse (by intro hc; cases hc)
  | Except.ok _, Except.error _ => Decidable.isFalse (by intro hc; cases hc)
  | Except.ok a₁, Except.ok a₂ =>
    if h : a₁ = a₂ then Decidable.isTrue (by rw [h])
    else Decidable.isFalse (by intro hc; cases hc; exact h rfl)

/-- The committee data of one validator for one epoch, as produced by the
external shuffle primitive `helpers.CommitteeAssignments` (`Committee`,
`CommitteeIndex`, `AttesterSlot`). -/
structure CommitteeInfo where
  committee : List Nat := []
  committeeIndex : Nat := 0
  attesterSlot : Nat := 0
deriving DecidableEq

/-- `ethpb.ValidatorAssignments_CommitteeAssignment`.  Unset protobuf fields
default to zero values, as in Go. -/
structure CommitteeAssignmentRec where
  beaconCommittees : List Nat := []
  committeeIndex : Nat := 0
  attesterSlot : Nat := 0
  proposerSlots : List Nat := []
  publicKey : List Nat := []
  validatorIndex : Nat := 0
deriving DecidableEq

/-- `ethpb.ValidatorAssignments`. -/
structure ValidatorAssignments where
  epoch : Nat := 0
  assignments : List CommitteeAssignmentRec := []
  nextPageToken : String := ""
  totalSize : Nat := 0
deriving DecidableEq

/-- `ethpb.MinimalConsensusInfo` (epoch, ordered proposer-key list, epoch start
time, slot duration). -/
structure MinimalConsensusInfoRec where
  epoch : Nat := 0
  value : List String := []
  epochTimeStart : Nat := 0
  slotTimeDuration : Nat := 0
deriving DecidableEq

/-- The interface of a beacon state snapshot as consumed by the sources.
`proposerAssignments` / `committeeAssignments` model the external shuffle
primitives `helpers.ProposerAssignments(state, epoch)` and
`helpers.CommitteeAssignments(state, epoch)`; attaching them to the snapshot
record encodes the spec invariant that the schedule is a pure function of
(snapshot, epoch).  `proposerAssignments` returns the proposer map as its list
of entries in the Go-runtime-chosen iteration order. -/
structure BeaconState where
  slot : Nat
  numValidators : Nat
  pubkeyAtIndex : Nat → List Nat
  validatorIndexByPubkey : List Nat → Option Nat
  activeValidatorIndices : Nat → Except String (List Nat)
  committeeAssignments : Nat → Except String ((Nat → CommitteeInfo) × (Nat → List Nat))
  proposerAssignments : Nat → Except String (List (Nat × List Nat))

/-- The RPC `beacon.Server` environment used by `src/unnamed/part_000`:
configuration, `cmd.Get().MaxRPCPageSize`, the current slot from
`GenesisTimeFetcher.CurrentSlot()` and the storage accessor
`StateGen.StateBySlot`. -/
structure Server where
  cfg : Config
  maxPageSize : Nat
  currentSlot : Nat
  stateBySlot : Nat → Except String BeaconState

/-- Modelled from the spec: `helpers.SlotToEpoch` — a fixed number of slots per
epoch partitions the slot axis into epochs. -/
def slotToEpoch (cfg : Config) (slot : Nat) : Nat :=
  slot / cfg.slotsPerEpoch

/-- Modelled from the spec: `helpers.StartSlot` — first slot of an epoch. -/
def startSlotOfEpoch (cfg : Config) (epoch : Nat) : Nat :=
  epoch * cfg.slotsPerEpoch

/-- Modelled from the spec: `helpers.EndSlot` — last slot of an epoch. -/
def endSlotOfEpoch (cfg : Config) (epoch : Nat) : Nat :=
  startSlotOfEpoch cfg (epoch + 1) - 1

/-- Modelled from the spec: `helpers.SlotToTime` — genesis time plus the slot
duration times the slot number. -/
def slotToTime (genesisUnix : Nat) (cfg : Config) (slot : Nat) : Nat :=
  genesisUnix + slot * cfg.secondsPerSlot

/-- Lowercase hexadecimal digit for a value below 16. -/
def hexDigit (n : Nat) : Char :=
  if n < 10 then Char.ofNat (48 + n) else Char.ofNat (87 + n)

/-- Two-digit lowercase hexadecimal rendering of one byte
(`hex.EncodeToString` on a single byte). -/
def hexByte (b : Nat) : String :=
  String.mk [hexDigit ((b / 16) % 16), hexDigit (b % 16)]

/-- `hex.EncodeToString` over a byte slice. -/
def hexEncode (bs : List Nat) : String :=
  String.join (bs.map hexByte)

/-- `fmt.Sprintf("0x%s", hex.EncodeToString(pk))`, also the `%#x` rendering of
a byte slice. -/
def formatPubkeyHex (pk : List Nat) : String :=
  "0x" ++ hexEncode pk

/-- Error message of `part_000` line 42: page size over the maximum. -/
def pageSizeErrorMsg (requested maxSize : Nat) : String :=
  "Requested page size " ++ Nat.repr requested ++
    " can not be greater than max size " ++ Nat.repr maxSize

/-- `errEpoch` of `part_000` line 32, instantiated with both epochs. -/
def futureEpochErrorMsg (currentEpoch requestedEpoch : Nat) : String :=
  "Cannot retrieve information about an epoch in the future, current epoch " ++
    Nat.repr currentEpoch ++ ", requesting " ++ Nat.repr requestedEpoch

/-- Error message of `part_000` line 126: validator index out of range. -/
def outOfRangeMsg (index count : Nat) : String :=
  "Validator index " ++ Nat.repr index ++ " >= validator count " ++ Nat.repr count

/-- Error message of `part_000` line 191: proposer-record count mismatch. -/
def invalidLenMsg (expected got : Nat) : String :=
  "invalid validators len, expected: " ++ Nat.repr expected ++
    ", got: " ++ Nat.repr got

/-- Error message of `minimal_consensus_info.go` line 188: count mismatch with
the epoch appended. -/
def invalidLenEpochMsg (expected got epoch : Nat) : String :=
  invalidLenMsg expected got ++ ", epoch: " ++ Nat.repr epoch

/-- Error message of `minimal_consensus_info.go` line 161: no snapshot in the
epoch's slot range. -/
def noStateMsg (epoch : Nat) : String :=
  "Could not retrieve any state for epoch " ++ Nat.repr epoch

/-- Error message of `minimal_consensus_info.go` line 49: key-list length
mismatch. -/
def notEnoughAssignmentsMsg (expected got : Nat) : String :=
  "not enough assignments, expected: " ++ Nat.repr expected ++
    ", got: " ++ Nat.repr got

/-- One decimal digit of a page token. -/
def decDigit? (c : Char) : Option Nat :=
  if 48 ≤ c.toNat ∧ c.toNat ≤ 57 then some (c.toNat - 48) else none

/-- Decimal parsing of a non-empty digit string (`strconv.Atoi` on the page
tokens the wire format allows). -/
def parseDecAux : List Char → Nat → Option Nat
  | [], acc => some acc
  | c :: cs, acc =>
    match decDigit? c with
    | none => none
    | some d => parseDecAux cs (acc * 10 + d)

/-- Decimal parsing of a string: at least one digit, all digits. -/
def parseDec (s : String) : Option Nat :=
  match s.data with
  | [] => none
  | cs => parseDecAux cs 0

/-- Modelled from the spec: the page-token decoding of the pagination package
(not under the given sources) — `pageIndex("") = 0`, otherwise the decimal
value of the token. -/
def pageIndexOfToken (token : String) : Option Nat :=
  if token = "" then some 0 else parseDec token

/-- Modelled from the spec: `pagination.StartAndEndPage` (the pagination
package is not under the given sources).  Zero page size is replaced by the
default; `start = pageIndex(token) * pageSize`; `start ≥ totalCount` fails
naming both values; `end = min(start + pageSize, totalCount)`; the next token
is empty exactly when `end = totalCount` and otherwise the decimal string of
`pageIndex(token) + 1`. -/
def startAndEndPage (defaultPageSize : Nat) (pageToken : String)
    (pageSize : Nat) (totalSize : Nat) : Except String (Nat × Nat × String) :=
  let ps := if pageSize = 0 then defaultPageSize else pageSize
  match pageIndexOfToken pageToken with
  | none => Except.error ("could not parse page token: " ++ pageToken)
  | some idx =>
    let start := idx * ps
    if totalSize ≤ start then
      Except.error ("page start " ++ Nat.repr start ++ " >= list " ++ Nat.repr totalSize)
    else
      let stop := min (start + ps) totalSize
      Except.ok (start, stop, if stop = totalSize then "" else Nat.repr (idx + 1))

/-- The query filter of `ethpb.ListValidatorAssignmentsRequest`. -/
inductive QueryFilter where
  | genesisFilter (b : Bool)
  | epochFilter (e : Nat)
  | noFilter
deriving DecidableEq

/-- `ethpb.ListValidatorAssignmentsRequest`. -/
structure AssignReq where
  pageSize : Nat := 0
  pageToken : String := ""
  queryFilter : QueryFilter := QueryFilter.noFilter
  publicKeys : List (List Nat) := []
  indices : List Nat := []

/-- The `switch req.QueryFilter` of `part_000` lines 52-59: the requested
epoch, zero for the genesis filter and for an absent filter. -/
def requestedEpochOf (req : AssignReq) : Nat :=
  match req.queryFilter with
  | QueryFilter.genesisFilter _ => 0
  | QueryFilter.epochFilter e => e
  | QueryFilter.noFilter => 0

/-- The public-key resolution loop of `part_000` lines 81-88: each key is
resolved through `ValidatorIndexByPubkey`, failing NotFound at the first
unresolved key. -/
def resolveKeys (st : BeaconState) : List (List Nat) → Except RpcError (List Nat)
  | [] => Except.ok []
  | pk :: rest =>
    match st.validatorIndexByPubkey pk with
    | none =>
      Except.error ⟨ErrCode.notFound,
        "Could not find validator index for public key " ++ formatPubkeyHex pk⟩
    | some index =>
      match resolveKeys st rest with
      | Except.error e => Except.error e
      | Except.ok tail => Except.ok (index :: tail)

/-- The index-merge loop of `part_000` lines 91-95: a requested index is
appended only when the `filtered` map (which records exactly the key-resolved
indices) does not contain it. -/
def buildFilteredIndices (resolved : List Nat) (reqIndices : List Nat) : List Nat :=
  resolved ++ reqIndices.filter (fun i => !(decide (i ∈ resolved)))

/-- The per-index composition loop of `part_000` lines 124-140 over a given
index list: the bound check against the validator count, then one record per
index from the committee data, the proposer map and the stored public key. -/
def composeAssignments (st : BeaconState) (comA : Nat → CommitteeInfo)
    (propS : Nat → List Nat) : List Nat → Except RpcError (List CommitteeAssignmentRec)
  | [] => Except.ok []
  | index :: rest =>
    if st.numValidators ≤ index then
      Except.error ⟨ErrCode.outOfRange, outOfRangeMsg index st.numValidators⟩
    else
      match composeAssignments st comA propS rest with
      | Except.error e => Except.error e
      | Except.ok tail =>
        Except.ok ({ beaconCommittees := (comA index).committee,
                     committeeIndex := (comA index).committeeIndex,
                     attesterSlot := (comA index).attesterSlot,
                     proposerSlots := propS index,
                     publicKey := st.pubkeyAtIndex index,
                     validatorIndex := index } :: tail)

/-- The pagination-and-composition tail of `ListValidatorAssignments`
(`part_000` lines 113-147), over the candidate index list: paginate, fetch
the committee data and compose one record per index of the selected page
slice. -/
def paginateAndCompose (srv : Server) (req : AssignReq) (st : BeaconState)
    (requestedEpoch : Nat) (candidates : List Nat) : Except RpcError ValidatorAssignments :=
  match startAndEndPage srv.cfg.defaultPageSize req.pageToken req.pageSize candidates.length with
  | Except.error msg =>
    Except.error ⟨ErrCode.internal, "Could not paginate results: " ++ msg⟩
  | Except.ok (start, stop, nextTok) =>
    match st.committeeAssignments requestedEpoch with
    | Except.error msg =>
      Except.error ⟨ErrCode.internal, "Could not compute committee assignments: " ++ msg⟩
    | Except.ok (comA, propS) =>
      match composeAssignments st comA propS ((candidates.drop start).take (stop - start)) with
      | Except.error e => Except.error e
      | Except.ok res =>
        Except.ok { epoch := requestedEpoch, assignments := res,
                    nextPageToken := nextTok, totalSize := candidates.length }

/-- `ListValidatorAssignments` of `part_000` lines 36-148. -/
def ListValidatorAssignments (srv : Server) (req : AssignReq) :
    Except RpcError ValidatorAssignments :=
  if srv.maxPageSize < req.pageSize then
    Except.error ⟨ErrCode.invalidArgument, pageSizeErrorMsg req.pageSize srv.maxPageSize⟩
  else
    let requestedEpoch := requestedEpochOf req
    let currentEpoch := slotToEpoch srv.cfg srv.currentSlot
    if currentEpoch < requestedEpoch then
      Except.error ⟨ErrCode.invalidArgument, futureEpochErrorMsg currentEpoch requestedEpoch⟩
    else
      match srv.stateBySlot (startSlotOfEpoch srv.cfg requestedEpoch) with
      | Except.error msg =>
        Except.error ⟨ErrCode.internal,
          "Could not retrieve archived state for epoch " ++ Nat.repr requestedEpoch ++ ": " ++ msg⟩
      | Except.ok st =>
        match resolveKeys st req.publicKeys with
        | Except.error e => Except.error e
        | Except.ok resolved =>
          let filteredIndices := buildFilteredIndices resolved req.indices
          match st.activeValidatorIndices requestedEpoch with
          | Except.error msg =>
            Except.error ⟨ErrCode.internal,
              "Could not retrieve active validator indices: " ++ msg⟩
          | Except.ok activeIndices =>
            if filteredIndices.isEmpty && activeIndices.isEmpty then
              Except.ok { epoch := 0, assignments := [], nextPageToken := "0", totalSize := 0 }
            else
              paginateAndCompose srv req st requestedEpoch
                (if filteredIndices.isEmpty then activeIndices else filteredIndices)

/-- The expected record count of `part_000` lines 183-188 and
`minimal_consensus_info.go` lines 180-185: `SlotsPerEpoch`, minus one for the
genesis epoch whose slot 0 has no proposer. -/
def expectedProposerCount (cfg : Config) (epoch : Nat) : Nat :=
  if epoch = 0 then cfg.slotsPerEpoch - 1 else cfg.slotsPerEpoch

/-- The record built from one proposer-map entry (`part_000` lines 173-181 and
`minimal_consensus_info.go` lines 170-178). -/
def proposerEntryRec (st : BeaconState) (p : Nat × List Nat) : CommitteeAssignmentRec :=
  { proposerSlots := p.2, publicKey := st.pubkeyAtIndex p.1, validatorIndex := p.1 }

/-- `GetProposerListForEpoch` of `part_000` lines 150-198. -/
def GetProposerListForEpoch (srv : Server) (curEpoch : Nat) :
    Except RpcError ValidatorAssignments :=
  match srv.stateBySlot (startSlotOfEpoch srv.cfg curEpoch) with
  | Except.error msg =>
    Except.error ⟨ErrCode.internal,
      "Could not retrieve archived state for epoch " ++ Nat.repr curEpoch ++ ": " ++ msg⟩
  | Except.ok latestState =>
    match latestState.proposerAssignments curEpoch with
    | Except.error msg =>
      Except.error ⟨ErrCode.internal, "Could not compute committee assignments: " ++ msg⟩
    | Except.ok entries =>
      let res := entries.map (proposerEntryRec latestState)
      let maxValidators := expectedProposerCount srv.cfg curEpoch
      if res.length ≠ maxValidators then
        Except.error ⟨ErrCode.unknown, invalidLenMsg maxValidators res.length⟩
      else
        Except.ok { epoch := curEpoch, assignments := res }

/-- `NextEpochProposerList` of `part_000` lines 202-210: the proposer list for
the epoch of the current slot. -/
def NextEpochProposerList (srv : Server) : Except RpcError ValidatorAssignments :=
  GetProposerListForEpoch srv (slotToEpoch srv.cfg srv.currentSlot)

/-- The ordering used by the modelled storage query: larger slots first. -/
def slotGE (a b : BeaconState) : Prop :=
  b.slot ≤ a.slot

instance : DecidableRel slotGE :=
  fun a b => Nat.decLe b.slot a.slot

instance : IsTotal BeaconState slotGE :=
  ⟨fun a b => Or.symm (Nat.le_total a.slot b.slot)⟩

instance : IsTrans BeaconState slotGE :=
  ⟨fun _ _ _ h1 h2 => Nat.le_trans h2 h1⟩

/-- The `blockchain.Service` environment used by
`minimal_consensus_info.go`: configuration, genesis time and the retained
snapshot store behind `beaconDB`. -/
structure ChainService where
  cfg : Config
  genesisUnix : Nat
  store : List BeaconState

/-- Modelled from the spec: the storage query `beaconDB.HighestSlotStatesBelow`
(the storage engine is not under the given sources) — all retained snapshots
with slot at most the bound, ordered by decreasing slot. -/
def highestSlotStatesBelow (store : List BeaconState) (slotMax : Nat) : List BeaconState :=
  List.insertionSort slotGE (store.filter (fun st => st.slot ≤ slotMax))

/-- Whether a snapshot's slot lies in the slot range of an epoch. -/
def stateInEpochRange (cfg : Config) (epoch : Nat) (st : BeaconState) : Bool :=
  decide (startSlotOfEpoch cfg epoch ≤ st.slot) && decide (st.slot ≤ endSlotOfEpoch cfg epoch)

/-- The snapshot-selection loop of `minimal_consensus_info.go` lines 151-157:
the first state returned by the storage query whose slot lies in the epoch's
slot range. -/
def selectStateForEpoch (svc : ChainService) (epoch : Nat) : Option BeaconState :=
  List.find? (stateInEpochRange svc.cfg epoch)
    (highestSlotStatesBelow svc.store (endSlotOfEpoch svc.cfg epoch))

/-- `getPastProposerListForEpoch` of `minimal_consensus_info.go` lines 121-195. -/
def getPastProposerListForEpoch (svc : ChainService) (epoch : Nat) :
    Except RpcError ValidatorAssignments :=
  match selectStateForEpoch svc epoch with
  | none => Except.error ⟨ErrCode.internal, noStateMsg epoch⟩
  | some latestState =>
    match latestState.proposerAssignments epoch with
    | Except.error msg =>
      Except.error ⟨ErrCode.internal, "Could not compute committee assignments: " ++ msg⟩
    | Except.ok entries =>
      let res := entries.map (proposerEntryRec latestState)
      let maxValidators := expectedProposerCount svc.cfg epoch
      if res.length ≠ maxValidators then
        Except.error ⟨ErrCode.unknown, invalidLenEpochMsg maxValidators res.length epoch⟩
      else
        Except.ok { epoch := epoch, assignments := res }

/-- The all-zero placeholder key prepended for epoch 0
(`minimal_consensus_info.go` lines 35-39). -/
def zeroKeyPlaceholder (cfg : Config) : String :=
  formatPubkeyHex (List.replicate cfg.blsPubkeyLength 0)

/-- The formatting and validation part of `MinimalConsensusInfo`
(`minimal_consensus_info.go` lines 32-80), applied to the assignments
returned by `getPastProposerListForEpoch`: the epoch-0 placeholder, the
hex-encoded key list, the exact length check against `SlotsPerEpoch` and
the timing fields. -/
def composeConsensusInfo (svc : ChainService) (epoch : Nat)
    (assignments : ValidatorAssignments) : Except RpcError MinimalConsensusInfoRec :=
  let baseSlice := if epoch = 0 then [zeroKeyPlaceholder svc.cfg] else []
  let slice := baseSlice ++ assignments.assignments.map (fun a => formatPubkeyHex a.publicKey)
  let expectedValidators := svc.cfg.slotsPerEpoch
  if slice.length ≠ expectedValidators then
    Except.error ⟨ErrCode.unknown, notEnoughAssignmentsMsg expectedValidators slice.length⟩
  else
    Except.ok { epoch := epoch, value := slice,
                epochTimeStart := slotToTime svc.genesisUnix svc.cfg (startSlotOfEpoch svc.cfg epoch),
                slotTimeDuration := svc.cfg.secondsPerSlot }

/-- `MinimalConsensusInfo` of `minimal_consensus_info.go` lines 23-81. -/
def MinimalConsensusInfo (svc : ChainService) (epoch : Nat) :
    Except RpcError MinimalConsensusInfoRec :=
  match getPastProposerListForEpoch svc epoch with
  | Except.error e => Except.error e
  | Except.ok assignments => composeConsensusInfo svc epoch assignments

/-- The unbounded `for` loop of `MinimalConsensusInfoRange`
(`minimal_consensus_info.go` lines 99-112), given explicit fuel: starting one
past the last gathered epoch, append each successful record and stop silently
at the first failure.  The fuel only bounds the embedding; over a finite
snapshot store every sufficiently late epoch fails, so any adequate fuel gives
the Go loop's value. -/
def minimalConsensusRangeLoop (svc : ChainService) :
    Nat → List MinimalConsensusInfoRec → Nat → List MinimalConsensusInfoRec
  | 0, acc, _ => acc
  | fuel + 1, acc, nextEpoch =>
    match MinimalConsensusInfo svc nextEpoch with
    | Except.error _ => acc
    | Except.ok r => minimalConsensusRangeLoop svc fuel (acc ++ [r]) (nextEpoch + 1)

/-- `MinimalConsensusInfoRange` of `minimal_consensus_info.go` lines 83-119. -/
def MinimalConsensusInfoRange (svc : ChainService) (fuel : Nat) (fromEpoch : Nat) :
    Except RpcError (List MinimalConsensusInfoRec) :=
  match MinimalConsensusInfo svc fromEpoch with
  | Except.error e => Except.error e
  | Except.ok r => Except.ok (minimalConsensusRangeLoop svc fuel [r] (r.epoch + 1))

/-- Committee data used by the concrete test states. -/
def sampleCommitteeInfo (i : Nat) : CommitteeInfo :=
  { committee := [i], committeeIndex := i, attesterSlot := i }

/-- Concrete configuration with one slot per epoch and one-byte keys, used by
the chain-service fixtures. -/
def cfgSmall : Config :=
  { slotsPerEpoch := 1, blsPubkeyLength := 1, secondsPerSlot := 6, defaultPageSize := 250 }

/-- Snapshot at slot 0 of the small store; its proposer map for epoch 0 is
empty (the genesis epoch has one slot fewer). -/
def stSlot0 : BeaconState :=
  { slot := 0, numValidators := 1,
    pubkeyAtIndex := fun _ => [0],
    validatorIndexByPubkey := fun pk => pk.head?,
    activeValidatorIndices := fun _ => Except.ok [0],
    committeeAssignments := fun _ => Except.ok (sampleCommitteeInfo, fun _ => []),
    proposerAssignments := fun e => if e = 0 then Except.ok [] else Except.error "wrong epoch" }

/-- Snapshot at slot 1 of the small store; its proposer map for epoch 1 has
exactly one entry. -/
def stSlot1 : BeaconState :=
  { slot := 1, numValidators := 1,
    pubkeyAtIndex := fun _ => [0],
    validatorIndexByPubkey := fun pk => pk.head?,
    activeValidatorIndices := fun _ => Except.ok [0],
    committeeAssignments := fun _ => Except.ok (sampleCommitteeInfo, fun _ => []),
    proposerAssignments := fun e => if e = 1 then Except.ok [(0, [1])] else Except.error "wrong epoch" }

/-- Chain service over a store retaining exactly the snapshots for epochs 0
and 1. -/
def svcSmall : ChainService :=
  { cfg := cfgSmall, genesisUnix := 0, store := [stSlot0, stSlot1] }

/-- The consensus-info record of epoch 0 of the small service. -/
def recEpoch0 : MinimalConsensusInfoRec :=
  { epoch := 0, value := ["0x00"], epochTimeStart := 0, slotTimeDuration := 6 }

/-- The consensus-info record of epoch 1 of the small service. -/
def recEpoch1 : MinimalConsensusInfoRec :=
  { epoch := 1, value := ["0x00"], epochTimeStart := 6, slotTimeDuration := 6 }

example : MinimalConsensusInfo svcSmall 0 = Except.ok recEpoch0 := by decide
example : MinimalConsensusInfo svcSmall 1 = Except.ok recEpoch1 := by decide
example : (MinimalConsensusInfo svcSmall 2).isOk = false := by decide
example : MinimalConsensusInfoRange svcSmall 10 0 = Except.ok [recEpoch0, recEpoch1] := by decide

/-- Concrete configuration used by the RPC fixtures. -/
def cfgRpc : Config :=
  { slotsPerEpoch := 32, blsPubkeyLength := 1, secondsPerSlot := 12, defaultPageSize := 250 }

/-- Concrete snapshot with 100 validators; the key `[i]` resolves to index
`i`. -/
def stRpc : BeaconState :=
  { slot := 0, numValidators := 100,
    pubkeyAtIndex := fun i => [i],
    validatorIndexByPubkey := fun pk => pk.head?,
    activeValidatorIndices := fun _ => Except.ok (List.range 100),
    committeeAssignments := fun _ => Except.ok (sampleCommitteeInfo, fun _ => []),
    proposerAssignments := fun _ => Except.error "unused" }

/-- Concrete RPC server over `stRpc`. -/
def srvRpc : Server :=
  { cfg := cfgRpc, maxPageSize := 500, currentSlot := 0,
    stateBySlot := fun s => if s = 0 then Except.ok stRpc else Except.error "no state" }

/-- The expected record for index `i` under `stRpc`'s committee data. -/
def rpcRecord (i : Nat) : CommitteeAssignmentRec :=
  { beaconCommittees := [i], committeeIndex := i, attesterSlot := i,
    proposerSlots := [], publicKey := [i], validatorIndex := i }

example :
    ListValidatorAssignments srvRpc
      { indices := [1, 2, 3, 4, 5, 6], pageSize := 2, pageToken := "1" } =
    Except.ok { epoch := 0, assignments := [rpcRecord 3, rpcRecord 4],
                nextPageToken := "2", totalSize := 6 } := by decide
example :
    ListValidatorAssignments srvRpc
      { indices := [1, 2, 3, 4, 5, 6], pageSize := 5, pageToken := "1" } =
    Except.ok { epoch := 0, assignments := [rpcRecord 6],
                nextPageToken := "", totalSize := 6 } := by decide
example :
    ListValidatorAssignments srvRpc
      { publicKeys := [[1], [2]], indices := [2, 3] } =
    Except.ok { epoch := 0, assignments := [rpcRecord 1, rpcRecord 2, rpcRecord 3],
                nextPageToken := "", totalSize := 3 } := by decide

/-- Concrete snapshot with a single validator, used for the out-of-range page
fixture. -/
def stTiny : BeaconState :=
  { slot := 0, numValidators := 1,
    pubkeyAtIndex := fun i => [i],
    validatorIndexByPubkey := fun pk => pk.head?,
    activeValidatorIndices := fun _ => Except.ok [0],
    committeeAssignments := fun _ => Except.ok (sampleCommitteeInfo, fun _ => []),
    proposerAssignments := fun _ => Except.error "unused" }

/-- Concrete RPC server over `stTiny`. -/
def srvTiny : Server :=
  { cfg := cfgRpc, maxPageSize := 500, currentSlot := 0,
    stateBySlot := fun _ => Except.ok stTiny }

example :
    (ListValidatorAssignments srvTiny
      { indices := [0, 7], pageSize := 1, pageToken := "" }).isOk = true := by decide
example :
    ListValidatorAssignments srvTiny
      { indices := [7, 0], pageSize := 1, pageToken := "" } =
    Except.error ⟨ErrCode.outOfRange, outOfRangeMsg 7 1⟩ := by decide

/-- Configuration with three slots per epoch, used by the map-iteration-order
fixtures. -/
def cfgThree : Config :=
  { slotsPerEpoch := 3, blsPubkeyLength := 1, secondsPerSlot := 6, defaultPageSize := 250 }

/-- Snapshot whose epoch-0 proposer map `{0 ↦ [1], 1 ↦ [2]}` is enumerated
with index 0 first. -/
def stOrderA : BeaconState :=
  { slot := 0, numValidators := 2,
    pubkeyAtIndex := fun i => [i],
    validatorIndexByPubkey := fun pk => pk.head?,
    activeValidatorIndices := fun _ => Except.ok [0, 1],
    committeeAssignments := fun _ => Except.ok (sampleCommitteeInfo, fun _ => []),
    proposerAssignments := fun _ => Except.ok [(0, [1]), (1, [2])] }

/-- The same snapshot as `stOrderA` with the proposer map enumerated in the
opposite order — the Go runtime is free to pick either. -/
def stOrderB : BeaconState :=
  { stOrderA with proposerAssignments := fun _ => Except.ok [(1, [2]), (0, [1])] }

/-- Server over `stOrderA`. -/
def srvOrderA : Server :=
  { cfg := cfgThree, maxPageSize := 500, currentSlot := 0,
    stateBySlot := fun _ => Except.ok stOrderA }

/-- Server over the same snapshot store with the other map-iteration order. -/
def srvOrderB : Server :=
  { srvOrderA with stateBySlot := fun _ => Except.ok stOrderB }

example :
    GetProposerListForEpoch srvOrderA 0 ≠ GetProposerListForEpoch srvOrderB 0 := by decide
example :
    GetProposerListForEpoch srvOrderA 0 =
    Except.ok { epoch := 0,
                assignments := [{ proposerSlots := [1], publicKey := [0], validatorIndex := 0 },
                                { proposerSlots := [2], publicKey := [1], validatorIndex := 1 }] } := by
  decide

lemma resolveKeys_error_code {st : BeaconState} {ks : List (List Nat)} {e : RpcError}
    (h : resolveKeys st ks = Except.error e) : e.code = ErrCode.notFound := by
  induction ks with
  | nil => simp [resolveKeys] at h
  | cons pk rest ih =>
    unfold resolveKeys at h
    cases hpk : st.validatorIndexByPubkey pk with
    | none =>
      rw [hpk] at h
      injection h with h'
      rw [← h']
    | some i =>
      rw [hpk] at h
      cases hr : resolveKeys st rest with
      | error e' =>
        rw [hr] at h
        injection h with h'
        subst h'
        exact ih hr
      | ok tail =>
        rw [hr] at h
        cases h

lemma composeAssignments_error_code {st : BeaconState} {comA : Nat → CommitteeInfo}
    {propS : Nat → List Nat} {idxs : List Nat} {e : RpcError}
    (h : composeAssignments st comA propS idxs = Except.error e) :
    e.code = ErrCode.outOfRange := by
  induction idxs with
  | nil => simp [composeAssignments] at h
  | cons i rest ih =>
    unfold composeAssignments at h
    by_cases hb : st.numValidators ≤ i
    · rw [if_pos hb] at h
      injection h with h'
      rw [← h']
    · rw [if_neg hb] at h
      cases hr : composeAssignments st comA propS rest with
      | error e' =>
        rw [hr] at h
        injection h with h'
        subst h'
        exact ih hr
      | ok tail =>
        rw [hr] at h
        cases h

/-- Claim C10: a request whose page size exceeds the configured maximum fails
with InvalidArgument before any other check — for every server environment and
request, in particular for future epochs and for servers whose state fetch
would fail — and the error message contains both the requested page size and
the maximum. -/
theorem listAssignments_page_size_checked_first :
    ∀ (srv : Server) (req : AssignReq), srv.maxPageSize < req.pageSize →
      ListValidatorAssignments srv req =
        Except.error ⟨ErrCode.invalidArgument, pageSizeErrorMsg req.pageSize srv.maxPageSize⟩ ∧
      ∃ s₁ s₂, pageSizeErrorMsg req.pageSize srv.maxPageSize =
        s₁ ++ Nat.repr req.pageSize ++ s₂ ++ Nat.repr srv.maxPageSize := by
  intro srv req h
  constructor
  · unfold ListValidatorAssignments
    rw [if_pos h]
  · exact ⟨"Requested page size ", " can not be greater than max size ", rfl⟩

/-- A server whose state fetch always fails, used to exhibit check priority. -/
def srvFail : Server :=
  { cfg := cfgRpc, maxPageSize := 500, currentSlot := 0,
    stateBySlot := fun _ => Except.error "backend down" }

/-- Witness for C10 at a concrete oversized request that also asks for a
future epoch against a failing backend: the page-size error wins. -/
theorem listAssignments_page_size_checked_first_witness :
    (500 : Nat) < 501 ∧
    ListValidatorAssignments srvFail
        { pageSize := 501, queryFilter := QueryFilter.epochFilter 99 } =
      Except.error ⟨ErrCode.invalidArgument, pageSizeErrorMsg 501 500⟩ :=
  ⟨by decide,
    (listAssignments_page_size_checked_first srvFail
      { pageSize := 501, queryFilter := QueryFilter.epochFilter 99 } (by decide)).1⟩

/-- Claim C1: whenever `GetProposerListForEpoch` succeeds its assignments list
has length exactly `SlotsPerEpoch` for epochs above zero and exactly
`SlotsPerEpoch - 1` for epoch zero; whenever the number of composed records
differs from that expected count the call fails with an error naming the
expected and the actual counts; the historical variant
`getPastProposerListForEpoch` enforces the same count on success. -/
theorem proposerList_count_spec :
    (∀ (srv : Server) (epoch : Nat) (va : ValidatorAssignments),
        GetProposerListForEpoch srv epoch = Except.ok va →
        va.assignments.length = expectedProposerCount srv.cfg epoch ∧
        (epoch ≠ 0 → va.assignments.length = srv.cfg.slotsPerEpoch) ∧
        (epoch = 0 → va.assignments.length = srv.cfg.slotsPerEpoch - 1)) ∧
    (∀ (srv : Server) (epoch : Nat) (st : BeaconState) (entries : List (Nat × List Nat)),
        srv.stateBySlot (startSlotOfEpoch srv.cfg epoch) = Except.ok st →
        st.proposerAssignments epoch = Except.ok entries →
        entries.length ≠ expectedProposerCount srv.cfg epoch →
        GetProposerListForEpoch srv epoch =
          Except.error ⟨ErrCode.unknown,
            invalidLenMsg (expectedProposerCount srv.cfg epoch) entries.length⟩ ∧
        ∃ s₁ s₂, invalidLenMsg (expectedProposerCount srv.cfg epoch) entries.length =
          s₁ ++ Nat.repr (expectedProposerCount srv.cfg epoch) ++ s₂ ++ Nat.repr entries.length) ∧
    (∀ (svc : ChainService) (epoch : Nat) (va : ValidatorAssignments),
        getPastProposerListForEpoch svc epoch = Except.ok va →
        va.assignments.length = expectedProposerCount svc.cfg epoch) := by
  refine ⟨?_, ?_, ?_⟩
  · intro srv epoch va h
    unfold GetProposerListForEpoch at h
    cases hst : srv.stateBySlot (startSlotOfEpoch srv.cfg epoch) with
    | error msg => rw [hst] at h; cases h
    | ok latestState =>
      rw [hst] at h
      dsimp only at h
      cases hpa : latestState.proposerAssignments epoch with
      | error msg => rw [hpa] at h; cases h
      | ok entries =>
        rw [hpa] at h
        dsimp only at h
        by_cases hlen :
            (entries.map (proposerEntryRec latestState)).length = expectedProposerCount srv.cfg epoch
        · rw [if_neg (by simpa using hlen)] at h
          injection h with h'
          have hassign : va.assignments = entries.map (proposerEntryRec latestState) := by
            rw [← h']
          refine ⟨by rw [hassign]; exact hlen, ?_, ?_⟩
          · intro hne
            rw [hassign, hlen, expectedProposerCount, if_neg hne]
          · intro he0
            rw [hassign, hlen, expectedProposerCount, if_pos he0]
        · rw [if_pos (by simpa using hlen)] at h
          cases h
  · intro srv epoch st entries hst hpa hlen
    constructor
    · unfold GetProposerListForEpoch
      rw [hst]
      dsimp only
      rw [hpa]
      dsimp only
      rw [if_pos (by simpa using hlen)]
      simp [List.length_map]
    · exact ⟨"invalid validators len, expected: ", ", got: ", rfl⟩
  · intro svc epoch va h
    unfold getPastProposerListForEpoch at h
    cases hsel : selectStateForEpoch svc epoch with
    | none => rw [hsel] at h; cases h
    | some st =>
      rw [hsel] at h
      dsimp only at h
      cases hpa : st.proposerAssignments epoch with
      | error m => rw [hpa] at h; cases h
      | ok entries =>
        rw [hpa] at h
        dsimp only at h
        by_cases hlen :
            (entries.map (proposerEntryRec st)).length = expectedProposerCount svc.cfg epoch
        · rw [if_neg (by simpa using hlen)] at h
          injection h with h'
          have hassign : va.assignments = entries.map (proposerEntryRec st) := by
            rw [← h']
          rw [hassign]
          exact hlen
        · rw [if_pos (by simpa using hlen)] at h
          cases h

/-- The successful epoch-0 result of `GetProposerListForEpoch` over
`srvOrderA`, used by the C1 witness. -/
def vaOrderA0 : ValidatorAssignments :=
  { epoch := 0,
    assignments := [{ proposerSlots := [1], publicKey := [0], validatorIndex := 0 },
                    { proposerSlots := [2], publicKey := [1], validatorIndex := 1 }] }

/-- Witness for C1: for the concrete two-validator store with three slots per
epoch, epoch 0 succeeds with exactly `SlotsPerEpoch - 1 = 2` records, and an
epoch whose proposer map has the wrong entry count fails with the counting
error. -/
theorem proposerList_count_spec_witness :
    GetProposerListForEpoch srvOrderA 0 = Except.ok vaOrderA0 ∧
    vaOrderA0.assignments.length = cfgThree.slotsPerEpoch - 1 ∧
    GetProposerListForEpoch srvOrderA 1 =
      Except.error ⟨ErrCode.unknown, invalidLenMsg 3 2⟩ :=
  ⟨by decide,
    (proposerList_count_spec.1 srvOrderA 0 vaOrderA0 (by decide)).2.2 rfl,
    (proposerList_count_spec.2.1 srvOrderA 1 stOrderA [(0, [1]), (1, [2])]
      rfl rfl (by decide)).1⟩

lemma paginateAndCompose_error_code {srv : Server} {req : AssignReq} {st : BeaconState}
    {requestedEpoch : Nat} {candidates : List Nat} {e : RpcError}
    (h : paginateAndCompose srv req st requestedEpoch candidates = Except.error e) :
    e.code = ErrCode.internal ∨ e.code = ErrCode.outOfRange := by
  unfold paginateAndCompose at h
  cases hpg : startAndEndPage srv.cfg.defaultPageSize req.pageToken req.pageSize
      candidates.length with
  | error msg =>
    rw [hpg] at h
    injection h with h'
    rw [← h']
    exact Or.inl rfl
  | ok triple =>
    rw [hpg] at h
    obtain ⟨start, stop, nextTok⟩ := triple
    dsimp only at h
    cases hca : st.committeeAssignments requestedEpoch with
    | error msg =>
      rw [hca] at h
      injection h with h'
      rw [← h']
      exact Or.inl rfl
    | ok pair =>
      rw [hca] at h
      obtain ⟨comA, propS⟩ := pair
      dsimp only at h
      cases hcp : composeAssignments st comA propS
          ((candidates.drop start).take (stop - start)) with
      | error e' =>
        rw [hcp] at h
        injection h with h'
        subst h'
        exact Or.inr (composeAssignments_error_code hcp)
      | ok res =>
        rw [hcp] at h
        cases h

/-- Claim C9: under the page-size guard, a requested epoch strictly above the
current epoch is rejected with InvalidArgument naming both epochs, while a
requested epoch at or below the current epoch is never rejected with
InvalidArgument by any later stage. -/
theorem listAssignments_future_epoch_spec :
    ∀ (srv : Server) (req : AssignReq), req.pageSize ≤ srv.maxPageSize →
      (slotToEpoch srv.cfg srv.currentSlot < requestedEpochOf req →
        ListValidatorAssignments srv req =
          Except.error ⟨ErrCode.invalidArgument,
            futureEpochErrorMsg (slotToEpoch srv.cfg srv.currentSlot) (requestedEpochOf req)⟩ ∧
        ∃ s₁ s₂, futureEpochErrorMsg (slotToEpoch srv.cfg srv.currentSlot) (requestedEpochOf req) =
          s₁ ++ Nat.repr (slotToEpoch srv.cfg srv.currentSlot) ++ s₂ ++
            Nat.repr (requestedEpochOf req)) ∧
      (requestedEpochOf req ≤ slotToEpoch srv.cfg srv.currentSlot →
        ∀ e, ListValidatorAssignments srv req = Except.error e →
          e.code ≠ ErrCode.invalidArgument) := by
  intro srv req hps
  constructor
  · intro hlt
    constructor
    · unfold ListValidatorAssignments
      rw [if_neg (Nat.not_lt.mpr hps)]
      dsimp only
      rw [if_pos hlt]
    · exact ⟨"Cannot retrieve information about an epoch in the future, current epoch ",
        ", requesting ", rfl⟩
  · intro hle e h
    unfold ListValidatorAssignments at h
    rw [if_neg (Nat.not_lt.mpr hps)] at h
    dsimp only at h
    rw [if_neg (Nat.not_lt.mpr hle)] at h
    cases hst : srv.stateBySlot (startSlotOfEpoch srv.cfg (requestedEpochOf req)) with
    | error msg =>
      rw [hst] at h
      injection h with h'
      rw [← h']
      simp
    | ok st =>
      rw [hst] at h
      dsimp only at h
      cases hrk : resolveKeys st req.publicKeys with
      | error e' =>
        rw [hrk] at h
        injection h with h'
        subst h'
        rw [resolveKeys_error_code hrk]
        decide
      | ok resolved =>
        rw [hrk] at h
        dsimp only at h
        cases hai : st.activeValidatorIndices (requestedEpochOf req) with
        | error msg =>
          rw [hai] at h
          injection h with h'
          rw [← h']
          simp
        | ok activeIndices =>
          rw [hai] at h
          dsimp only at h
          by_cases hemp :
              ((buildFilteredIndices resolved req.indices).isEmpty && activeIndices.isEmpty) = true
          · rw [if_pos hemp] at h
            cases h
          · rw [if_neg hemp] at h
            rcases paginateAndCompose_error_code h with hc | hc <;> rw [hc] <;> decide

/-- Witness for C9: the future-epoch request (epoch 1 while the chain is at
epoch 0) is rejected with InvalidArgument naming both epochs, and the same
request for the current epoch is not rejected at all. -/
theorem listAssignments_future_epoch_spec_witness :
    ListValidatorAssignments srvRpc { queryFilter := QueryFilter.epochFilter 1 } =
      Except.error ⟨ErrCode.invalidArgument, futureEpochErrorMsg 0 1⟩ ∧
    (ListValidatorAssignments srvRpc { queryFilter := QueryFilter.epochFilter 0 }).isOk = true :=
  ⟨((listAssignments_future_epoch_spec srvRpc { queryFilter := QueryFilter.epochFilter 1 }
      (by decide)).1 (by decide)).1,
    by decide⟩

lemma toDigitsCore_ne_nil_of_acc {b : Nat} :
    ∀ (fuel n : Nat) (ds : List Char), ds ≠ [] → Nat.toDigitsCore b fuel n ds ≠ [] := by
  intro fuel
  induction fuel with
  | zero => intro n ds hds; exact hds
  | succ fuel ih =>
    intro n ds hds
    unfold Nat.toDigitsCore
    dsimp only
    by_cases hq : n / b = 0
    · rw [if_pos hq]
      exact List.cons_ne_nil _ _
    · rw [if_neg hq]
      exact ih (n / b) _ (List.cons_ne_nil _ _)

lemma natRepr_ne_empty (n : Nat) : Nat.repr n ≠ "" := by
  intro hc
  have hdata : (Nat.toDigits 10 n).asString.data = ("" : String).data := by
    rw [← hc]; rfl
  have hnil : Nat.toDigits 10 n = [] := hdata
  unfold Nat.toDigits at hnil
  unfold Nat.toDigitsCore at hnil
  dsimp only at hnil
  by_cases hq : n / 10 = 0
  · rw [if_pos hq] at hnil
    exact List.cons_ne_nil _ _ hnil
  · rw [if_neg hq] at hnil
    exact toDigitsCore_ne_nil_of_acc n (n / 10) _ (List.cons_ne_nil _ _) hnil

/-- Claim C3: for every token, page size and total count (with the zero page
size replaced by the default before the formulas apply, per the spec's own
defaulting rule) the paginator satisfies `start = pageIndex(token) * pageSize`
with `pageIndex("") = 0`, `end = min(start + pageSize, totalCount)`, an empty
next token exactly when `end = totalCount` and otherwise the decimal string of
`pageIndex(token) + 1`, and it fails exactly when `start ≥ totalCount`; with
the same token "1" but page sizes 2 and 5 over the same six-element index
list, two different absolute sub-ranges are selected, as observed end to end
through `ListValidatorAssignments`. -/
theorem paginator_spec :
    (∀ (d : Nat) (token : String) (pageSize totalCount idx : Nat),
        pageIndexOfToken token = some idx → pageSize ≠ 0 →
        ((startAndEndPage d token pageSize totalCount).isOk = false ↔
           totalCount ≤ idx * pageSize) ∧
        (∀ start stop nextTok,
           startAndEndPage d token pageSize totalCount = Except.ok (start, stop, nextTok) →
           start = idx * pageSize ∧
           stop = min (start + pageSize) totalCount ∧
           (nextTok = "" ↔ stop = totalCount) ∧
           (stop ≠ totalCount → nextTok = Nat.repr (idx + 1)))) ∧
    (pageIndexOfToken "" = some 0 ∧
     startAndEndPage 250 "1" 2 6 = Except.ok (2, 4, "2") ∧
     startAndEndPage 250 "1" 5 6 = Except.ok (5, 6, "") ∧
     ListValidatorAssignments srvRpc
         { indices := [1, 2, 3, 4, 5, 6], pageSize := 2, pageToken := "1" } =
       Except.ok { epoch := 0, assignments := [rpcRecord 3, rpcRecord 4],
                   nextPageToken := "2", totalSize := 6 } ∧
     ListValidatorAssignments srvRpc
         { indices := [1, 2, 3, 4, 5, 6], pageSize := 5, pageToken := "1" } =
       Except.ok { epoch := 0, assignments := [rpcRecord 6],
                   nextPageToken := "", totalSize := 6 }) := by
  constructor
  · intro d token pageSize totalCount idx htoken hps
    have hexp : startAndEndPage d token pageSize totalCount =
        (if totalCount ≤ idx * pageSize then
           Except.error ("page start " ++ Nat.repr (idx * pageSize) ++ " >= list " ++
             Nat.repr totalCount)
         else
           Except.ok (idx * pageSize, min (idx * pageSize + pageSize) totalCount,
             if min (idx * pageSize + pageSize) totalCount = totalCount then ""
             else Nat.repr (idx + 1))) := by
      unfold startAndEndPage
      rw [if_neg hps, htoken]
    constructor
    · rw [hexp]
      by_cases hb : totalCount ≤ idx * pageSize
      · rw [if_pos hb]
        exact iff_of_true rfl hb
      · rw [if_neg hb]
        exact iff_of_false (fun hc => Bool.noConfusion hc) hb
    · intro start stop nextTok h
      rw [hexp] at h
      by_cases hb : totalCount ≤ idx * pageSize
      · rw [if_pos hb] at h
        cases h
      · rw [if_neg hb] at h
        injection h with h'
        injection h' with ha hbc
        injection hbc with hbs hc
        subst ha
        subst hbs
        subst hc
        refine ⟨rfl, rfl, ?_, ?_⟩
        · by_cases hmin : min (idx * pageSize + pageSize) totalCount = totalCount
          · rw [if_pos hmin]
            exact iff_of_true rfl hmin
          · rw [if_neg hmin]
            exact iff_of_false (natRepr_ne_empty (idx + 1)) hmin
        · intro hne
          rw [if_neg hne]
  · exact ⟨by decide, by decide, by decide, by decide, by decide⟩

/-- Witness for C3: the paginator's failure characterization instantiated at
token "1", page size 2 and total count 6, together with the concrete page
bounds of that call. -/
theorem paginator_spec_witness :
    pageIndexOfToken "1" = some 1 ∧ (2 : Nat) ≠ 0 ∧
    ((startAndEndPage 250 "1" 2 6).isOk = false ↔ 6 ≤ 1 * 2) :=
  ⟨by decide, by decide, (paginator_spec.1 250 "1" 2 6 1 (by decide) (by decide)).1⟩

/-- Claim C4: with every public key resolvable, the candidate index list is
the key-resolved indices in request order followed by the requested indices
not already present, in request order; over duplicate-free inputs it is
duplicate-free, contains exactly the union, and keeps the resolved indices as
a prefix; keys resolving to indices 1 and 2 merged with explicit indices 2
and 3 yield exactly the list 1, 2, 3, end to end through
`ListValidatorAssignments`. -/
theorem filteredIndices_merge_spec :
    (∀ (st : BeaconState) (pubKeys : List (List Nat)) (reqIndices resolved : List Nat),
        resolveKeys st pubKeys = Except.ok resolved →
        List.Forall₂ (fun pk i => st.validatorIndexByPubkey pk = some i) pubKeys resolved ∧
        (resolved.Nodup → reqIndices.Nodup →
          (buildFilteredIndices resolved reqIndices).Nodup) ∧
        (∀ x, x ∈ buildFilteredIndices resolved reqIndices ↔
          x ∈ resolved ∨ x ∈ reqIndices) ∧
        ∃ suffix, buildFilteredIndices resolved reqIndices = resolved ++ suffix ∧
          suffix.Sublist reqIndices ∧ ∀ x ∈ suffix, x ∉ resolved) ∧
    (resolveKeys stRpc [[1], [2]] = Except.ok [1, 2] ∧
     buildFilteredIndices [1, 2] [2, 3] = [1, 2, 3] ∧
     ListValidatorAssignments srvRpc { publicKeys := [[1], [2]], indices := [2, 3] } =
       Except.ok { epoch := 0, assignments := [rpcRecord 1, rpcRecord 2, rpcRecord 3],
                   nextPageToken := "", totalSize := 3 }) := by
  constructor
  · intro st pubKeys reqIndices resolved hres
    refine ⟨?_, ?_, ?_, ?_⟩
    · induction pubKeys generalizing resolved with
      | nil =>
        simp only [resolveKeys] at hres
        injection hres with h'
        subst h'
        exact List.Forall₂.nil
      | cons pk rest ih =>
        unfold resolveKeys at hres
        cases hpk : st.validatorIndexByPubkey pk with
        | none => rw [hpk] at hres; cases hres
        | some i =>
          rw [hpk] at hres
          cases hr : resolveKeys st rest with
          | error e => rw [hr] at hres; cases hres
          | ok tail =>
            rw [hr] at hres
            injection hres with h'
            subst h'
            exact List.Forall₂.cons hpk (ih tail hr)
    · intro hnr hni
      refine List.Nodup.append hnr (List.Nodup.filter _ hni) ?_
      intro x hx hxf
      have hmem := List.mem_filter.mp hxf
      have : (decide (x ∈ resolved)) = false := by
        have := hmem.2
        simpa using this
      exact absurd hx (by simpa using this)
    · intro x
      constructor
      · intro hx
        rcases List.mem_append.mp hx with hx | hx
        · exact Or.inl hx
        · exact Or.inr (List.mem_filter.mp hx).1
      · intro hx
        by_cases hxr : x ∈ resolved
        · exact List.mem_append.mpr (Or.inl hxr)
        · rcases hx with hx | hx
          · exact absurd hx hxr
          · refine List.mem_append.mpr (Or.inr (List.mem_filter.mpr ⟨hx, ?_⟩))
            simpa using hxr
    · refine ⟨reqIndices.filter (fun i => !(decide (i ∈ resolved))), rfl,
        List.filter_sublist _, ?_⟩
      intro x hx
      have := (List.mem_filter.mp hx).2
      simpa using this
  · exact ⟨by decide, by decide, by decide⟩

/-- Witness for C4: the concrete resolution of keys 1 and 2 against the
hundred-validator snapshot, the resulting merge with indices 2 and 3, and the
ordered resolution property instantiated there. -/
theorem filteredIndices_merge_spec_witness :
    resolveKeys stRpc [[1], [2]] = Except.ok [1, 2] ∧
    List.Forall₂ (fun pk i => stRpc.validatorIndexByPubkey pk = some i) [[1], [2]] [1, 2] ∧
    buildFilteredIndices [1, 2] [2, 3] = [1, 2, 3] :=
  ⟨by decide,
    (filteredIndices_merge_spec.1 stRpc [[1], [2]] [2, 3] [1, 2] (by decide)).1,
    by decide⟩

/-- Counterexample to C8 as stated: over a snapshot with exactly one
validator, the request for indices 0 and 7 with page size 1 contains the
out-of-range index 7, yet `ListValidatorAssignments` succeeds, because the
bound check only runs over the selected page slice and index 7 falls outside
page 0. -/
theorem listAssignments_out_of_range_unchecked_outside_page :
    7 ∈ ({ indices := [0, 7], pageSize := 1, pageToken := "" } : AssignReq).indices ∧
    stTiny.numValidators ≤ 7 ∧
    (ListValidatorAssignments srvTiny
      { indices := [0, 7], pageSize := 1, pageToken := "" }).isOk = true :=
  ⟨by decide, by decide, by decide⟩

/-- Amended C8: the bound check runs over exactly the indices of the selected
page slice — every index composed into the response is strictly below the
validator count, a violating index in the slice fails the call with OutOfRange
naming an offending index and the count, and a violating requested index
outside the slice is not checked (see the counterexample); concretely, the
request whose page slice is exactly the out-of-range index 7 over one
validator fails with the OutOfRange error naming 7 and 1. -/
theorem composeAssignments_range_check :
    (∀ (st : BeaconState) (comA : Nat → CommitteeInfo) (propS : Nat → List Nat)
        (idxs : List Nat) (res : List CommitteeAssignmentRec),
        composeAssignments st comA propS idxs = Except.ok res →
        ∀ i ∈ idxs, i < st.numValidators) ∧
    (∀ (st : BeaconState) (comA : Nat → CommitteeInfo) (propS : Nat → List Nat)
        (idxs : List Nat), (∃ i ∈ idxs, st.numValidators ≤ i) →
        ∃ j ∈ idxs, st.numValidators ≤ j ∧
          composeAssignments st comA propS idxs =
            Except.error ⟨ErrCode.outOfRange, outOfRangeMsg j st.numValidators⟩ ∧
          ∃ s₁ s₂, outOfRangeMsg j st.numValidators =
            s₁ ++ Nat.repr j ++ s₂ ++ Nat.repr st.numValidators) ∧
    ListValidatorAssignments srvTiny { indices := [7, 0], pageSize := 1, pageToken := "" } =
      Except.error ⟨ErrCode.outOfRange, outOfRangeMsg 7 1⟩ := by
  refine ⟨?_, ?_, by decide⟩
  · intro st comA propS idxs
    induction idxs with
    | nil => intro res _ i hi; cases hi
    | cons a rest ih =>
      intro res h i hi
      unfold composeAssignments at h
      by_cases hb : st.numValidators ≤ a
      · rw [if_pos hb] at h
        cases h
      · rw [if_neg hb] at h
        cases hr : composeAssignments st comA propS rest with
        | error e => rw [hr] at h; cases h
        | ok tail =>
          rcases List.mem_cons.mp hi with hia | hirest
          · subst hia
            exact Nat.lt_of_not_le hb
          · exact ih tail hr i hirest
  · intro st comA propS idxs
    induction idxs with
    | nil => intro h; rcases h with ⟨i, hi, _⟩; cases hi
    | cons a rest ih =>
      intro h
      by_cases hb : st.numValidators ≤ a
      · refine ⟨a, List.mem_cons_self a rest, hb, ?_, "Validator index ",
          " >= validator count ", rfl⟩
        unfold composeAssignments
        rw [if_pos hb]
      · have hrest : ∃ i ∈ rest, st.numValidators ≤ i := by
          rcases h with ⟨i, hi, hle⟩
          rcases List.mem_cons.mp hi with hia | hirest
          · exact absurd (hia ▸ hle) hb
          · exact ⟨i, hirest, hle⟩
        rcases ih hrest with ⟨j, hj, hjle, herr, hdecomp⟩
        refine ⟨j, List.mem_cons_of_mem a hj, hjle, ?_, hdecomp⟩
        unfold composeAssignments
        rw [if_neg hb, herr]

/-- Witness for the amended C8: index 0 passes the bound check of the composed
page over the one-validator snapshot, and the request whose page slice is the
out-of-range index 7 fails with the OutOfRange error. -/
theorem composeAssignments_range_check_witness :
    (0 : Nat) < stTiny.numValidators ∧
    ListValidatorAssignments srvTiny { indices := [7, 0], pageSize := 1, pageToken := "" } =
      Except.error ⟨ErrCode.outOfRange, outOfRangeMsg 7 1⟩ :=
  ⟨composeAssignments_range_check.1 stTiny sampleCommitteeInfo (fun _ => []) [0]
      [rpcRecord 0] (by decide) 0 (by decide),
    composeAssignments_range_check.2.2⟩

lemma sorted_highestSlotStatesBelow (store : List BeaconState) (slotMax : Nat) :
    List.Sorted slotGE (highestSlotStatesBelow store slotMax) :=
  List.sorted_insertionSort slotGE _

lemma mem_highestSlotStatesBelow {store : List BeaconState} {slotMax : Nat} {st : BeaconState} :
    st ∈ highestSlotStatesBelow store slotMax ↔ st ∈ store ∧ st.slot ≤ slotMax := by
  unfold highestSlotStatesBelow
  rw [(List.perm_insertionSort slotGE _).mem_iff]
  simp [List.mem_filter]

lemma find_first_desc_max {p : BeaconState → Bool} :
    ∀ {l : List BeaconState}, List.Sorted slotGE l → ∀ {st : BeaconState},
      l.find? p = some st → ∀ s' ∈ l, p s' = true → s'.slot ≤ st.slot := by
  intro l
  induction l with
  | nil => intro _ st h; cases h
  | cons a rest ih =>
    intro hs st hfind s' hs' hp
    cases hpa : p a with
    | true =>
      rw [List.find?_cons, hpa] at hfind
      injection hfind with h'
      subst h'
      rcases List.mem_cons.mp hs' with h | h
      · subst h; exact Nat.le_refl _
      · exact List.rel_of_sorted_cons hs s' h
    | false =>
      rw [List.find?_cons, hpa] at hfind
      rcases List.mem_cons.mp hs' with h | h
      · subst h; rw [hp] at hpa; cases hpa
      · exact ih hs.of_cons hfind s' h hp

/-- Claim C5: the historical snapshot-selection policy scans the retained
snapshots with slot at most the epoch's end slot in decreasing slot order and
takes the first whose slot lies in the epoch's slot range — so the chosen
snapshot is in the store, lies in the range, and no in-range retained
snapshot has a larger slot; when no snapshot's slot falls in the range, in
particular when every retained slot is below the epoch's start slot (a future
epoch), the call fails with the no-state Internal error. -/
theorem snapshot_selection_spec :
    ∀ (svc : ChainService) (epoch : Nat),
      ((∀ st ∈ svc.store, ¬(startSlotOfEpoch svc.cfg epoch ≤ st.slot ∧
          st.slot ≤ endSlotOfEpoch svc.cfg epoch)) →
        getPastProposerListForEpoch svc epoch =
          Except.error ⟨ErrCode.internal, noStateMsg epoch⟩) ∧
      (∀ st, selectStateForEpoch svc epoch = some st →
        st ∈ svc.store ∧ startSlotOfEpoch svc.cfg epoch ≤ st.slot ∧
        st.slot ≤ endSlotOfEpoch svc.cfg epoch ∧
        ∀ s' ∈ svc.store, startSlotOfEpoch svc.cfg epoch ≤ s'.slot →
          s'.slot ≤ endSlotOfEpoch svc.cfg epoch → s'.slot ≤ st.slot) ∧
      ((∀ st ∈ svc.store, st.slot < startSlotOfEpoch svc.cfg epoch) →
        getPastProposerListForEpoch svc epoch =
          Except.error ⟨ErrCode.internal, noStateMsg epoch⟩) := by
  intro svc epoch
  have hnone : (∀ st ∈ svc.store, ¬(startSlotOfEpoch svc.cfg epoch ≤ st.slot ∧
      st.slot ≤ endSlotOfEpoch svc.cfg epoch)) →
      getPastProposerListForEpoch svc epoch =
        Except.error ⟨ErrCode.internal, noStateMsg epoch⟩ := by
    intro hout
    have hsel : selectStateForEpoch svc epoch = none := by
      unfold selectStateForEpoch
      rw [List.find?_eq_none]
      intro st hst
      have hmem := (mem_highestSlotStatesBelow.mp hst).1
      have hrange := hout st hmem
      simp only [stateInEpochRange, Bool.and_eq_true, decide_eq_true_eq]
      exact hrange
    unfold getPastProposerListForEpoch
    rw [hsel]
  refine ⟨hnone, ?_, ?_⟩
  · intro st hsel
    unfold selectStateForEpoch at hsel
    have hp := List.find?_some hsel
    have hmem := List.mem_of_find?_eq_some hsel
    have hrange : startSlotOfEpoch svc.cfg epoch ≤ st.slot ∧
        st.slot ≤ endSlotOfEpoch svc.cfg epoch := by
      simpa [stateInEpochRange, Bool.and_eq_true, decide_eq_true_eq] using hp
    refine ⟨(mem_highestSlotStatesBelow.mp hmem).1, hrange.1, hrange.2, ?_⟩
    intro s' hs' hge hle
    refine find_first_desc_max (sorted_highestSlotStatesBelow svc.store _) hsel s' ?_ ?_
    · exact mem_highestSlotStatesBelow.mpr ⟨hs', hle⟩
    · simp only [stateInEpochRange, Bool.and_eq_true, decide_eq_true_eq]
      exact ⟨hge, hle⟩
  · intro hfut
    refine hnone ?_
    intro st hst hrange
    exact absurd (hfut st hst) (Nat.not_lt.mpr hrange.1)

/-- Witness for C5: over the two-snapshot store, epoch 1 selects the retained
snapshot at slot 1 (in range, maximal) and epoch 2 — a future epoch, all
retained slots below its start slot — fails with the no-state error. -/
theorem snapshot_selection_spec_witness :
    stSlot1 ∈ svcSmall.store ∧
    startSlotOfEpoch svcSmall.cfg 1 ≤ stSlot1.slot ∧
    stSlot1.slot ≤ endSlotOfEpoch svcSmall.cfg 1 ∧
    getPastProposerListForEpoch svcSmall 2 =
      Except.error ⟨ErrCode.internal, noStateMsg 2⟩ := by
  have h := (snapshot_selection_spec svcSmall 1).2.1 stSlot1 rfl
  exact ⟨h.1, h.2.1, h.2.2.1,
    (snapshot_selection_spec svcSmall 2).2.2 (by decide)⟩

lemma composeConsensusInfo_ok {svc : ChainService} {epoch : Nat}
    {va : ValidatorAssignments} {rec : MinimalConsensusInfoRec}
    (h : composeConsensusInfo svc epoch va = Except.ok rec) :
    rec.value = (if epoch = 0 then [zeroKeyPlaceholder svc.cfg] else []) ++
      va.assignments.map (fun a => formatPubkeyHex a.publicKey) ∧
    rec.value.length = svc.cfg.slotsPerEpoch ∧ rec.epoch = epoch := by
  unfold composeConsensusInfo at h
  by_cases hlen : ((if epoch = 0 then [zeroKeyPlaceholder svc.cfg] else []) ++
      va.assignments.map (fun a => formatPubkeyHex a.publicKey)).length ≠
      svc.cfg.slotsPerEpoch
  · rw [if_pos hlen] at h
    cases h
  · rw [if_neg hlen] at h
    injection h with h'
    have hval : rec.value = (if epoch = 0 then [zeroKeyPlaceholder svc.cfg] else []) ++
        va.assignments.map (fun a => formatPubkeyHex a.publicKey) := by
      rw [← h']
    exact ⟨hval, by rw [hval]; exact not_ne_iff.mp hlen, by rw [← h']⟩

/-- Claim C6: every successful consensus-info record has a key list of length
exactly `SlotsPerEpoch`; for epoch 0 the list starts with the 0x-prefixed hex
encoding of an all-zero key of BLS public-key length; and a derived key list
of any other length makes the composition fail with the error naming the
expected and actual lengths. -/
theorem minimalConsensusInfo_key_list_spec :
    (∀ (svc : ChainService) (rec : MinimalConsensusInfoRec),
        MinimalConsensusInfo svc 0 = Except.ok rec →
        rec.value.length = svc.cfg.slotsPerEpoch ∧
        rec.value.head? = some (zeroKeyPlaceholder svc.cfg)) ∧
    (∀ (svc : ChainService) (epoch : Nat) (rec : MinimalConsensusInfoRec),
        MinimalConsensusInfo svc epoch = Except.ok rec →
        rec.value.length = svc.cfg.slotsPerEpoch) ∧
    (∀ (svc : ChainService) (epoch : Nat) (va : ValidatorAssignments),
        (if epoch = 0 then 1 else 0) + va.assignments.length ≠ svc.cfg.slotsPerEpoch →
        composeConsensusInfo svc epoch va =
          Except.error ⟨ErrCode.unknown,
            notEnoughAssignmentsMsg svc.cfg.slotsPerEpoch
              ((if epoch = 0 then 1 else 0) + va.assignments.length)⟩ ∧
        ∃ s₁ s₂, notEnoughAssignmentsMsg svc.cfg.slotsPerEpoch
            ((if epoch = 0 then 1 else 0) + va.assignments.length) =
          s₁ ++ Nat.repr svc.cfg.slotsPerEpoch ++ s₂ ++
            Nat.repr ((if epoch = 0 then 1 else 0) + va.assignments.length)) := by
  have hmci : ∀ (svc : ChainService) (epoch : Nat) (rec : MinimalConsensusInfoRec),
      MinimalConsensusInfo svc epoch = Except.ok rec →
      ∃ va : ValidatorAssignments,
        rec.value = (if epoch = 0 then [zeroKeyPlaceholder svc.cfg] else []) ++
          va.assignments.map (fun a => formatPubkeyHex a.publicKey) ∧
      rec.value.length = svc.cfg.slotsPerEpoch := by
    intro svc epoch rec h
    unfold MinimalConsensusInfo at h
    cases hgp : getPastProposerListForEpoch svc epoch with
    | error e => rw [hgp] at h; cases h
    | ok va =>
      rw [hgp] at h
      exact ⟨va, (composeConsensusInfo_ok h).1, (composeConsensusInfo_ok h).2.1⟩
  refine ⟨?_, ?_, ?_⟩
  · intro svc rec h
    rcases hmci svc 0 rec h with ⟨va, hval, hlen⟩
    refine ⟨hlen, ?_⟩
    rw [hval, if_pos rfl, List.singleton_append, List.head?_cons]
  · intro svc epoch rec h
    rcases hmci svc epoch rec h with ⟨va, _, hlen⟩
    exact hlen
  · intro svc epoch va hne
    have hslen : ((if epoch = 0 then [zeroKeyPlaceholder svc.cfg] else []) ++
        va.assignments.map (fun a => formatPubkeyHex a.publicKey)).length =
        (if epoch = 0 then 1 else 0) + va.assignments.length := by
      by_cases h0 : epoch = 0 <;> simp [h0, Nat.add_comm]
    constructor
    · unfold composeConsensusInfo
      dsimp only
      rw [hslen, if_pos hne]
    · exact ⟨"not enough assignments, expected: ", ", got: ", rfl⟩

/-- Witness for C6: the epoch-0 record of the small service has the one-slot
key list headed by the placeholder key, and composing a two-record assignment
list for epoch 1 against one slot per epoch fails naming expected count 1 and
actual count 2. -/
theorem minimalConsensusInfo_key_list_spec_witness :
    MinimalConsensusInfo svcSmall 0 = Except.ok recEpoch0 ∧
    recEpoch0.value.length = svcSmall.cfg.slotsPerEpoch ∧
    recEpoch0.value.head? = some (zeroKeyPlaceholder svcSmall.cfg) ∧
    composeConsensusInfo svcSmall 1 vaOrderA0 =
      Except.error ⟨ErrCode.unknown, notEnoughAssignmentsMsg 1 2⟩ := by
  have h := minimalConsensusInfo_key_list_spec.1 svcSmall recEpoch0 (by decide)
  exact ⟨by decide, h.1, h.2,
    (minimalConsensusInfo_key_list_spec.2.2 svcSmall 1 vaOrderA0 (by decide)).1⟩

lemma minimalConsensusInfo_ok_epoch {svc : ChainService} {e : Nat}
    {rec : MinimalConsensusInfoRec} (h : MinimalConsensusInfo svc e = Except.ok rec) :
    rec.epoch = e := by
  unfold MinimalConsensusInfo at h
  cases hgp : getPastProposerListForEpoch svc e with
  | error err => rw [hgp] at h; cases h
  | ok va =>
    rw [hgp] at h
    dsimp only at h
    exact (composeConsensusInfo_ok h).2.2

lemma range_succ_map_shift {α : Type} (f : Nat → α) (n : Nat) :
    [f 0] ++ (List.range n).map (fun j => f (j + 1)) = (List.range (n + 1)).map f := by
  rw [List.range_succ_eq_map, List.map_cons, List.map_map, List.singleton_append]
  rfl

lemma rangeLoop_spec (svc : ChainService) :
    ∀ (m fuel : Nat) (acc : List MinimalConsensusInfoRec) (e : Nat)
      (recs : Nat → MinimalConsensusInfoRec),
      (∀ j, j < m → MinimalConsensusInfo svc (e + j) = Except.ok (recs j)) →
      (MinimalConsensusInfo svc (e + m)).isOk = false →
      m ≤ fuel →
      minimalConsensusRangeLoop svc fuel acc e = acc ++ (List.range m).map recs := by
  intro m
  induction m with
  | zero =>
    intro fuel acc e recs hok herr hm
    cases fuel with
    | zero => simp [minimalConsensusRangeLoop]
    | succ f =>
      unfold minimalConsensusRangeLoop
      cases hmc : MinimalConsensusInfo svc e with
      | error err => simp
      | ok r =>
        have : (MinimalConsensusInfo svc e).isOk = false := herr
        rw [hmc] at this
        cases this
  | succ n ih =>
    intro fuel acc e recs hok herr hm
    cases fuel with
    | zero => cases (Nat.not_succ_le_zero n hm)
    | succ f =>
      unfold minimalConsensusRangeLoop
      have h0 : MinimalConsensusInfo svc e = Except.ok (recs 0) := by
        simpa using hok 0 (Nat.succ_pos n)
      rw [h0]
      dsimp only
      have hok' : ∀ j, j < n →
          MinimalConsensusInfo svc ((e + 1) + j) = Except.ok (recs (j + 1)) := by
        intro j hj
        rw [show (e + 1) + j = e + (j + 1) by omega]
        exact hok (j + 1) (Nat.succ_lt_succ hj)
      have herr' : (MinimalConsensusInfo svc ((e + 1) + n)).isOk = false := by
        rw [show (e + 1) + n = e + (n + 1) by omega]
        exact herr
      rw [ih f (acc ++ [recs 0]) (e + 1) (fun j => recs (j + 1)) hok' herr'
        (Nat.le_of_succ_le_succ hm)]
      rw [List.append_assoc, range_succ_map_shift]

/-- Claim C2: the range scan is asymmetric — a failure at the very first epoch
makes the whole call fail with that error (never an empty success), while
after a successful first record the scan appends the records of the
consecutive epochs in increasing order and the first later failure silently
terminates it, returning everything gathered so far as a success. -/
theorem minimalConsensusInfoRange_spec :
    (∀ (svc : ChainService) (fuel fromEpoch : Nat) (e : RpcError),
        MinimalConsensusInfo svc fromEpoch = Except.error e →
        MinimalConsensusInfoRange svc fuel fromEpoch = Except.error e) ∧
    (∀ (svc : ChainService) (fuel fromEpoch k : Nat)
        (recs : Nat → MinimalConsensusInfoRec),
        (∀ j, j ≤ k → MinimalConsensusInfo svc (fromEpoch + j) = Except.ok (recs j)) →
        (MinimalConsensusInfo svc (fromEpoch + k + 1)).isOk = false →
        k ≤ fuel →
        MinimalConsensusInfoRange svc fuel fromEpoch =
          Except.ok ((List.range (k + 1)).map recs)) := by
  constructor
  · intro svc fuel fromEpoch e h
    unfold MinimalConsensusInfoRange
    rw [h]
  · intro svc fuel fromEpoch k recs hok herr hk
    have h0 : MinimalConsensusInfo svc fromEpoch = Except.ok (recs 0) := by
      simpa using hok 0 (Nat.zero_le k)
    unfold MinimalConsensusInfoRange
    rw [h0]
    dsimp only
    rw [minimalConsensusInfo_ok_epoch h0]
    have hok' : ∀ j, j < k →
        MinimalConsensusInfo svc ((fromEpoch + 1) + j) = Except.ok (recs (j + 1)) := by
      intro j hj
      rw [show (fromEpoch + 1) + j = fromEpoch + (j + 1) by omega]
      exact hok (j + 1) (Nat.succ_le_of_lt hj)
    have herr' : (MinimalConsensusInfo svc ((fromEpoch + 1) + k)).isOk = false := by
      rw [show (fromEpoch + 1) + k = fromEpoch + k + 1 by omega]
      exact herr
    rw [rangeLoop_spec svc k fuel [recs 0] (fromEpoch + 1) (fun j => recs (j + 1))
      hok' herr' hk]
    rw [range_succ_map_shift]

/-- Witness for C2: over the two-epoch store, scanning from epoch 0 returns
exactly the records of epochs 0 and 1 in increasing order (the failure at
epoch 2 is absorbed), while scanning from the failing epoch 2 surfaces the
no-state error with no records. -/
theorem minimalConsensusInfoRange_spec_witness :
    MinimalConsensusInfoRange svcSmall 10 0 = Except.ok [recEpoch0, recEpoch1] ∧
    MinimalConsensusInfoRange svcSmall 10 2 =
      Except.error ⟨ErrCode.internal, noStateMsg 2⟩ := by
  constructor
  · have h := minimalConsensusInfoRange_spec.2 svcSmall 10 0 1
      (fun j => if j = 0 then recEpoch0 else recEpoch1) ?_ (by decide) (by decide)
    · exact h
    · intro j hj
      rcases Nat.le_one_iff_eq_zero_or_eq_one.mp hj with h | h <;> subst h <;> decide
  · exact minimalConsensusInfoRange_spec.1 svcSmall 10 2
      ⟨ErrCode.internal, noStateMsg 2⟩ (by decide)

/-- Two proposer-map enumerations are views of the same map when either both
fail identically or both succeed with the same entries, possibly in a
different iteration order. -/
def ExceptEntriesPerm :
    Except String (List (Nat × List Nat)) → Except String (List (Nat × List Nat)) → Prop
  | Except.error e1, Except.error e2 => e1 = e2
  | Except.ok l1, Except.ok l2 => List.Perm l1 l2
  | _, _ => False

/-- Two snapshots carry the same data when every accessor agrees and the
proposer maps have the same entries; the enumeration order of the proposer
map — chosen by the Go runtime on each `range`, not persisted anywhere — may
differ. -/
def StateSim (st1 st2 : BeaconState) : Prop :=
  st1.slot = st2.slot ∧ st1.numValidators = st2.numValidators ∧
  st1.pubkeyAtIndex = st2.pubkeyAtIndex ∧
  st1.validatorIndexByPubkey = st2.validatorIndexByPubkey ∧
  st1.activeValidatorIndices = st2.activeValidatorIndices ∧
  st1.committeeAssignments = st2.committeeAssignments ∧
  ∀ epoch, ExceptEntriesPerm (st1.proposerAssignments epoch) (st2.proposerAssignments epoch)

/-- Lifts `StateSim` through the fallible state fetch. -/
def StateBySlotSim : Except String BeaconState → Except String BeaconState → Prop
  | Except.error e1, Except.error e2 => e1 = e2
  | Except.ok s1, Except.ok s2 => StateSim s1 s2
  | _, _ => False

/-- Two servers observe the same unchanged snapshot store: identical
configuration, clock and stored data, with only the runtime-chosen proposer
map iteration orders free to differ. -/
def SameSnapshotStore (s1 s2 : Server) : Prop :=
  s1.cfg = s2.cfg ∧ s1.maxPageSize = s2.maxPageSize ∧ s1.currentSlot = s2.currentSlot ∧
  ∀ slot, StateBySlotSim (s1.stateBySlot slot) (s2.stateBySlot slot)

/-- Result equality up to the order of the assignment records. -/
def ResultPerm :
    Except RpcError ValidatorAssignments → Except RpcError ValidatorAssignments → Prop
  | Except.error e1, Except.error e2 => e1 = e2
  | Except.ok v1, Except.ok v2 =>
    v1.epoch = v2.epoch ∧ v1.nextPageToken = v2.nextPageToken ∧
    v1.totalSize = v2.totalSize ∧ List.Perm v1.assignments v2.assignments
  | _, _ => False

lemma sameStore_orderAB : SameSnapshotStore srvOrderA srvOrderB := by
  refine ⟨rfl, rfl, rfl, ?_⟩
  intro slot
  show StateSim stOrderA stOrderB
  refine ⟨rfl, rfl, rfl, rfl, rfl, rfl, ?_⟩
  intro epoch
  show List.Perm [(0, [1]), (1, [2])] [(1, [2]), (0, [1])]
  exact List.Perm.swap (1, [2]) (0, [1]) []

/-- Counterexample to C7 as stated: the two servers observe the same
unchanged snapshot store (same configuration, clock and stored data), yet
`GetProposerListForEpoch` returns different — not byte-identical — results,
because the proposer map is iterated in the runtime-chosen order that Go does
not fix. -/
theorem proposerList_map_order_dependence :
    SameSnapshotStore srvOrderA srvOrderB ∧
    GetProposerListForEpoch srvOrderA 0 ≠ GetProposerListForEpoch srvOrderB 0 :=
  ⟨sameStore_orderAB, by decide⟩

/-- Amended C7: over an unchanged snapshot store `GetProposerListForEpoch` is
deterministic up to the order of the returned records — two calls agree on
epoch, page token, total size and the multiset of records (and fail
identically), with only the record order free to follow the map-iteration
order. -/
theorem proposerList_deterministic_up_to_order :
    ∀ (s1 s2 : Server), SameSnapshotStore s1 s2 → ∀ epoch,
      ResultPerm (GetProposerListForEpoch s1 epoch) (GetProposerListForEpoch s2 epoch) := by
  intro s1 s2 hsim epoch
  obtain ⟨hcfg, hmax, hcur, hsb⟩ := hsim
  have hslot := hsb (startSlotOfEpoch s1.cfg epoch)
  unfold GetProposerListForEpoch
  rw [← hcfg]
  cases h1 : s1.stateBySlot (startSlotOfEpoch s1.cfg epoch) with
  | error m1 =>
    cases h2 : s2.stateBySlot (startSlotOfEpoch s1.cfg epoch) with
    | error m2 =>
      rw [h1, h2] at hslot
      have hm : m1 = m2 := hslot
      subst hm
      exact rfl
    | ok st2 =>
      rw [h1, h2] at hslot
      exact hslot.elim
  | ok st1 =>
    cases h2 : s2.stateBySlot (startSlotOfEpoch s1.cfg epoch) with
    | error m2 =>
      rw [h1, h2] at hslot
      exact hslot.elim
    | ok st2 =>
      rw [h1, h2] at hslot
      obtain ⟨hslt, hnum, hpub, hvip, hact, hcom, hpa⟩ := hslot
      have hpe := hpa epoch
      dsimp only
      cases hp1 : st1.proposerAssignments epoch with
      | error m1 =>
        cases hp2 : st2.proposerAssignments epoch with
        | error m2 =>
          rw [hp1, hp2] at hpe
          have hm : m1 = m2 := hpe
          subst hm
          exact rfl
        | ok l2 =>
          rw [hp1, hp2] at hpe
          exact hpe.elim
      | ok l1 =>
        cases hp2 : st2.proposerAssignments epoch with
        | error m2 =>
          rw [hp1, hp2] at hpe
          exact hpe.elim
        | ok l2 =>
          rw [hp1, hp2] at hpe
          have hperm : List.Perm l1 l2 := hpe
          have hfun : proposerEntryRec st1 = proposerEntryRec st2 := by
            funext p
            unfold proposerEntryRec
            rw [hpub]
          dsimp only
          rw [← hfun]
          have hlen : (l1.map (proposerEntryRec st1)).length =
              (l2.map (proposerEntryRec st1)).length :=
            (hperm.map (proposerEntryRec st1)).length_eq
          by_cases hc :
              (l1.map (proposerEntryRec st1)).length ≠ expectedProposerCount s1.cfg epoch
          · rw [if_pos hc, if_pos (by rw [← hlen]; exact hc)]
            rw [hlen]
            exact rfl
          · rw [if_neg hc, if_neg (by rw [← hlen]; exact hc)]
            exact ⟨rfl, rfl, rfl, hperm.map (proposerEntryRec st1)⟩

/-- Witness for the amended C7: the two concrete iteration orders of the same
two-entry proposer map yield results that agree up to record order. -/
theorem proposerList_deterministic_up_to_order_witness :
    ResultPerm (GetProposerListForEpoch srvOrderA 0) (GetProposerListForEpoch srvOrderB 0) :=
  proposerList_deterministic_up_to_order srvOrderA srvOrderB sameStore_orderAB 0
